import Mathlib

/-
Verification development for the libearth RSS 2.0 parser
(`libearth/parser/rss2.py`).  The module translates an RSS 2.0 document
tree into the canonical Atom-like feed model.  Pure handler functions are
embedded directly from the source; the dispatch machinery (`ParserBase`),
the `rss_base` helper sub-parsers and the `make_legal_as_atom` post-pass,
which live outside the provided source tree, are modelled from the
specification and marked as such in their doc comments.
-/

set_option autoImplicit false

namespace Libearth

/-- A parsed XML element as exposed by the tree-parsing collaborator:
local tag name, namespace URI, attributes in document order, text
content, and direct children in document order. -/
inductive XMLElement : Type where
  | mk : String → Option String → List (String × String) → Option String →
         List XMLElement → XMLElement

def XMLElement.tag : XMLElement → String
  | .mk t _ _ _ _ => t

def XMLElement.ns : XMLElement → Option String
  | .mk _ n _ _ _ => n

def XMLElement.attrib : XMLElement → List (String × String)
  | .mk _ _ a _ _ => a

def XMLElement.text : XMLElement → Option String
  | .mk _ _ _ x _ => x

def XMLElement.children : XMLElement → List XMLElement
  | .mk _ _ _ _ c => c

/-- Attribute lookup, `element.get(key)` / `element.attrib.get(key)`. -/
def XMLElement.get (e : XMLElement) (key : String) : Option String :=
  (e.attrib.find? (fun p => p.1 == key)).map (fun p => p.2)

/-- First direct child with the given unqualified tag, `element.find(tag)`. -/
def XMLElement.find (e : XMLElement) (t : String) : Option XMLElement :=
  e.children.find? (fun c => c.tag == t && c.ns == none)

/-- All direct children with the given unqualified tag, `element.findall(tag)`. -/
def XMLElement.findall (e : XMLElement) (t : String) : List XMLElement :=
  e.children.filter (fun c => c.tag == t && c.ns == none)

/-- Canonical-model text construct (`libearth.feed.Text`): the fields this
mapper populates. -/
structure Text where
  value : Option String := none
deriving DecidableEq

/-- Canonical-model person record (`libearth.feed.Person`): the fields this
mapper populates. -/
structure Person where
  name : Option String := none
deriving DecidableEq

/-- Canonical-model category record (`libearth.feed.Category`). -/
structure Category where
  term : Option String := none
  scheme_uri : Option String := none
deriving DecidableEq

/-- Canonical-model link record (`libearth.feed.Link`). -/
structure Link where
  uri : Option String := none
  relation : Option String := none
  mimetype : Option String := none
deriving DecidableEq

/-- Canonical-model generator record (`libearth.feed.Generator`). -/
structure Generator where
  uri : Option String := none
  value : Option String := none
deriving DecidableEq

/-- The channel-level fields of the canonical feed model that the RSS 2.0
mapper populates.  Timestamps are absolute instants modelled as integers. -/
structure ChannelData where
  id : Option String := none
  title : Option Text := none
  subtitle : Option Text := none
  rights : Option Text := none
  updated_at : Option Int := none
  generator : Option Generator := none
  contributors : List Person := []
  categories : List Category := []
  links : List Link := []
deriving DecidableEq

/-- The entry-level fields (`libearth.feed.Entry`) populated by the item
mapper.  An embedded `source` feed is parsed in non-entry mode, so it
carries only channel-level data. -/
structure Entry where
  id : Option String := none
  title : Option Text := none
  published_at : Option Int := none
  authors : List Person := []
  categories : List Category := []
  links : List Link := []
  content : Option Text := none
  source : Option ChannelData := none
deriving DecidableEq

/-- The canonical feed (`libearth.feed.Feed`): channel-level data plus the
entry collection.  `entries = none` models the attribute never having been
assigned; `entries = some l` models an assigned (possibly empty) list. -/
structure Feed extends ChannelData where
  entries : Option (List Entry) := none
deriving DecidableEq

/-- Ambient parsing parameters (`rss_base.RSSSession`): origin URL and the
default timezone (modelled as an integer offset) threaded through every
handler invocation. -/
structure RSSSession where
  feed_url : Option String := none
  default_tzinfo : Int := 0
deriving DecidableEq

/-- Failures that can escape a parse call in the embedded fragment:
an `AttributeError` from calling a string method on `None` text, a
`TypeError` from dispatching over a missing channel element, and a
fetch/format/parse failure raised while resolving an item's external
`source` document. -/
inductive PyError : Type where
  | attributeError
  | typeError
  | fetchFailed
deriving DecidableEq

/-- External collaborators of one parse invocation: the recursive source
resolver (`crawler.open_url` + `autodiscovery.get_format` + the nested
non-entry parse, bundled as one fallible oracle as §9 of the spec
suggests), the timezone guesser, and the clock reading used by the
post-pass normalizer. -/
structure Env where
  resolve_source : Option String → Except PyError ChannelData
  guess_default_tzinfo : XMLElement → Option String → Int
  now : Int

/-- Modelled from the spec: the Atom XML namespace set imported from the
sibling Atom parser (`parser.atom.ATOM_XMLNS_SET`, not under src/). -/
def ATOM_XMLNS_SET : List String :=
  ["http://www.w3.org/2005/Atom", "http://purl.org/atom/ns#"]

/-- Modelled from the spec: the RSS content-module namespace
(`rss_base.CONTENT_XMLNS`, not under src/). -/
def CONTENT_XMLNS : String := "http://purl.org/rss/1.0/modules/content/"

/-- Boolean prefix test on character lists, used to embed Python's
`str.startswith`. -/
def listPrefix : List Char → List Char → Bool
  | [], _ => true
  | _ :: _, [] => false
  | p :: ps, c :: cs => p == c && listPrefix ps cs

/-- Python `text.startswith('http://')` as used by `parse_guid`. -/
def startsWithHttp (t : String) : Bool :=
  listPrefix ("http://".data) t.data

/-- Hexadecimal-digit test matching the `[0-9a-fA-F]` character class of
`GUID_PATTERN`. -/
def isHexDigit (c : Char) : Bool :=
  c.isDigit || ('a' ≤ c && c ≤ 'f') || ('A' ≤ c && c ≤ 'F')

/-- Consume exactly `n` hexadecimal digits, returning the rest. -/
def hexRun : Nat → List Char → Option (List Char)
  | 0, cs => some cs
  | _ + 1, [] => none
  | n + 1, c :: cs => if isHexDigit c then hexRun n cs else none

/-- The 8-4-4-4-12 hexadecimal body of `GUID_PATTERN`, followed by an
optional closing brace and the end of input. -/
def guidTail (cs : List Char) : Bool :=
  match hexRun 8 cs with
  | some ('-' :: cs1) =>
    match hexRun 4 cs1 with
    | some ('-' :: cs2) =>
      match hexRun 4 cs2 with
      | some ('-' :: cs3) =>
        match hexRun 4 cs3 with
        | some ('-' :: cs4) =>
          match hexRun 12 cs4 with
          | some [] => true
          | some [c] => c == '}'
          | _ => false
        | _ => false
      | _ => false
    | _ => false
  | _ => false

/-- Whole-string match of `GUID_PATTERN` without the `$`-before-newline
rule: an optional opening brace, then the hexadecimal body. -/
def guidWhole (cs : List Char) : Bool :=
  match cs with
  | '{' :: rest => guidTail rest
  | _ => guidTail cs

/-- Truthiness of `GUID_PATTERN.match(t)`.  Python's `$` anchor also
matches just before a single trailing newline, so a match succeeds on the
string itself or on the string with one trailing newline removed. -/
def guidRegexMatch (t : String) : Bool :=
  guidWhole t.data ||
    (match t.data.getLast? with
     | some c => c == '\n' && guidWhole t.data.dropLast
     | none => false)

/-- Decimal digits to a natural number; `none` on empty input or a
non-digit character. -/
def decDigitsAux : List Char → Nat → Option Nat
  | [], acc => some acc
  | c :: cs, acc =>
    if c.isDigit then decDigitsAux cs (acc * 10 + (c.toNat - 48)) else none

/-- Parse a non-empty all-digit character list as a natural number. -/
def decNat? : List Char → Option Nat
  | [] => none
  | c :: cs => decDigitsAux (c :: cs) 0

/-- Modelled from the spec: `rss_base.datetime_parser` (§4.3, not under
src/) parses an RFC-822 date string into an absolute timestamp, applying
the session's default timezone when the string carries no explicit
offset.  No claim depends on the concrete date grammar, so it is
abstracted: a decimal string denotes its timestamp directly when suffixed
with an explicit offset marker, and is shifted by the session's default
timezone otherwise. -/
def rss_datetime (e : XMLElement) (s : RSSSession) : Option Int × RSSSession :=
  match e.text with
  | none => (none, s)
  | some t =>
    if t.data.getLast? = some 'Z' then
      ((decNat? t.data.dropLast).map (fun n => (n : Int)), s)
    else
      ((decNat? t.data).map (fun n => (n : Int) - s.default_tzinfo), s)

/-- Modelled from the spec: `rss_base.text_parser` (not under src/), the
text-with-type sub-parser; it wraps the element's text content into a
canonical text construct. -/
def rss_text (e : XMLElement) (s : RSSSession) : Option Text × RSSSession :=
  (some { value := e.text }, s)

/-- Modelled from the spec: `rss_base.subtitle_parser` (not under src/);
like the text sub-parser, it wraps the element's text content. -/
def rss_subtitle (e : XMLElement) (s : RSSSession) : Option Text × RSSSession :=
  (some { value := e.text }, s)

/-- Modelled from the spec: `rss_base.content_parser` (not under src/);
it wraps the element's text content into a content construct. -/
def rss_content (e : XMLElement) (s : RSSSession) : Option Text × RSSSession :=
  (some { value := e.text }, s)

/-- Modelled from the spec: `rss_base.person_parser` (§4.4, not under
src/) extracts a person from free text and never fails; unparsable text
is preserved verbatim as the display name, and an absent text yields no
person.  The email-splitting grammar is abstracted since no claim
depends on it. -/
def rss_person (e : XMLElement) (s : RSSSession) : Option Person × RSSSession :=
  (e.text.map (fun t => { name := some t }), s)

/-- Modelled from the spec: `rss_base.link_parser` (§4.6, not under src/)
maps an RSS `link` element's text to a link record with the default
`alternate` relation. -/
def rss_link (e : XMLElement) (s : RSSSession) : Option Link × RSSSession :=
  (some { uri := e.text, relation := some "alternate" }, s)

/-- Characters allowed in a URL scheme by Python's `urllib.parse`
(`scheme_chars`): letters, digits, `+`, `-` and `.`. -/
def schemeChar (c : Char) : Bool :=
  c.isAlpha || c.isDigit || c == '+' || c == '-' || c == '.'

/-- Split a character list at the first colon, returning the parts before
and after it. -/
def splitOnColon : List Char → Option (List Char × List Char)
  | [] => none
  | ':' :: cs => some ([], cs)
  | c :: cs => (splitOnColon cs).map (fun p => (c :: p.1, p.2))

/-- Scheme extraction of `urllib.parse.urlsplit`: the text before the
first colon is the scheme when it is non-empty, begins with a letter and
consists of scheme characters; it is lowercased.  Returns the scheme (if
any) and the remaining input. -/
def urlScheme? (cs : List Char) : Option String × List Char :=
  match splitOnColon cs with
  | some (bef, aft) =>
    if (match bef with | c :: _ => c.isAlpha | [] => false) &&
        bef.all schemeChar then
      (some (String.mk (bef.map Char.toLower)), aft)
    else
      (none, cs)
  | none => (none, cs)

/-- The network-location part of a URL after scheme removal: present only
after a leading `//`, it extends to the next `/`, `?` or `#`. -/
def netlocOf (rest : List Char) : List Char :=
  match rest with
  | '/' :: '/' :: r => r.takeWhile (fun c => !(c == '/' || c == '?' || c == '#'))
  | _ => []

/-- Python `urllib.parse.urlparse(t).scheme`, including the `ValueError`
raised on a network location containing an unmatched square bracket
(the invalid-IPv6-URL check).  An absent scheme is the empty string. -/
def urlsplitScheme (t : String) : Except Unit String :=
  let p := urlScheme? t.data
  let netloc := netlocOf p.2
  if (netloc.contains '[' && !netloc.contains ']') ||
      (netloc.contains ']' && !netloc.contains '[') then
    .error ()
  else
    .ok (p.1.getD "")

/-- Handler for `channel` registered in the source: starts an empty feed. -/
def parse_channel_init (s : RSSSession) : ChannelData × RSSSession :=
  ({}, s)

/-- Handler for `item` registered in the source: starts an empty entry. -/
def parse_item_init (s : RSSSession) : Entry × RSSSession :=
  ({}, s)

/-- Handler `parse_datetime` from the source: delegates to the rss_base
datetime sub-parser (channel `pubDate` targets `updated_at`, item
`pubDate` targets `published_at`). -/
def parse_datetime (e : XMLElement) (s : RSSSession) : Option Int × RSSSession :=
  rss_datetime e s

/-- Handler `parse_person` from the source: delegates to the rss_base
person sub-parser. -/
def parse_person (e : XMLElement) (s : RSSSession) : Option Person × RSSSession :=
  rss_person e s

/-- Handler `parse_category` from the source: builds a category from the
element text and its `domain` attribute. -/
def parse_category (e : XMLElement) (s : RSSSession) : Category × RSSSession :=
  ({ term := e.text, scheme_uri := e.get "domain" }, s)

/-- Handler `parse_text` from the source: delegates to the rss_base text
sub-parser. -/
def parse_text (e : XMLElement) (s : RSSSession) : Option Text × RSSSession :=
  rss_text e s

/-- Handler `parse_subtitle` from the source: delegates to the rss_base
subtitle sub-parser. -/
def parse_subtitle (e : XMLElement) (s : RSSSession) : Option Text × RSSSession :=
  rss_subtitle e s

/-- Handler `parse_atom_link` from the source: an Atom-namespaced
`link` child of `channel`, read from its `href`, `rel` (defaulting to
`alternate`) and `type` attributes. -/
def parse_atom_link (e : XMLElement) (s : RSSSession) : Link × RSSSession :=
  ({ uri := e.get "href",
     relation := some ((e.get "rel").getD "alternate"),
     mimetype := e.get "type" }, s)

/-- Handler `parse_link` from the source: delegates to the rss_base link
sub-parser. -/
def parse_link (e : XMLElement) (s : RSSSession) : Option Link × RSSSession :=
  rss_link e s

/-- Handler `parse_generator` from the source: if `urlparse(text).scheme`
is `http` or `https` the generator carries the text as its `uri`; on any
other scheme, or when `urlparse` raises `ValueError`, the generator
carries the raw text as its `value`.  `urlparse` coerces a `None` text
to the empty string, whose scheme is empty. -/
def parse_generator (e : XMLElement) (s : RSSSession) : Generator × RSSSession :=
  match urlsplitScheme (e.text.getD "") with
  | .error _ => ({ value := e.text }, s)
  | .ok sch =>
    if sch = "http" ∨ sch = "https" then
      ({ uri := e.text }, s)
    else
      ({ value := e.text }, s)

/-- Handler `parse_enclosure` from the source: a link record whose
relation is the fixed string `enclosure`, with `type` and `url`
attributes as mimetype and uri. -/
def parse_enclosure (e : XMLElement) (s : RSSSession) : Link × RSSSession :=
  ({ relation := some "enclosure",
     mimetype := e.get "type",
     uri := e.get "url" }, s)

/-- Handler `parse_source` from the source: fetches the `url` attribute,
auto-detects the fetched document's format and recursively parses it in
non-entry mode.  The fetch, detection and nested parse are performed by
the environment's resolver oracle; its failure propagates. -/
def parse_source (env : Env) (e : XMLElement) (s : RSSSession) :
    Except PyError (ChannelData × RSSSession) :=
  match env.resolve_source (e.get "url") with
  | .error err => .error err
  | .ok cd => .ok (cd, s)

/-- Handler `parse_comments` from the source: a link record carrying the
element text as uri with the fixed relation `discussion`. -/
def parse_comments (e : XMLElement) (s : RSSSession) : Link × RSSSession :=
  ({ uri := e.text, relation := some "discussion" }, s)

/-- Handler `parse_content` from the source: delegates to the rss_base
content sub-parser. -/
def parse_content (e : XMLElement) (s : RSSSession) : Option Text × RSSSession :=
  rss_content e s

/-- Handler `parse_guid` from the source.  Reading the `isPermalink`
attribute cannot fail, but `element.text.startswith(...)` raises an
`AttributeError` when the text is `None`.  With text present: an
`http://`-prefixed text whose permalink flag is not the string `False`
is returned verbatim; else a text matching `GUID_PATTERN` is returned
with the `urn:uuid:` prefix; else the handler returns no value. -/
def parse_guid (e : XMLElement) (s : RSSSession) :
    Except PyError (Option String × RSSSession) :=
  match e.text with
  | none => .error .attributeError
  | some t =>
    if startsWithHttp t ∧ e.get "isPermalink" ≠ some "False" then
      .ok (some t, s)
    else if guidRegexMatch t then
      .ok (some ("urn:uuid:" ++ t), s)
    else
      .ok (none, s)

/-- Field-aggregator rule for a scalar target: a `None` handler result is
a no-op, any other result overwrites the prior value. -/
def aggScalar {α : Type} (old : Option α) (v : Option α) : Option α :=
  match v with
  | none => old
  | some x => some x

/-- Field-aggregator rule for a collection target: a `None` handler
result is dropped, any other result is appended in document order. -/
def aggAppend {α : Type} (old : List α) (v : Option α) : List α :=
  old ++ v.toList

/-- Membership of an element's namespace in the Atom namespace set. -/
def isAtomNS : Option String → Bool
  | some ns => ATOM_XMLNS_SET.contains ns
  | none => false

/-- Test for the RSS content-module namespace. -/
def isContentNS : Option String → Bool
  | some ns => ns == CONTENT_XMLNS
  | none => false

/-- Modelled from the spec: one dispatch step of `ParserBase` (not under
src/) for a direct child of `channel`, using the registrations declared
in the source module.  An unqualified registration matches a child with
no namespace; the Atom-qualified `link` registration matches a child
whose namespace is in the Atom namespace set.  Handler results are
merged by the field aggregator: scalars overwrite, collections append,
a `None` result is a no-op; unmatched children are skipped. -/
def channelStep (c : XMLElement) (acc : ChannelData) (s : RSSSession) :
    ChannelData × RSSSession :=
  if c.ns = none then
    if c.tag = "pubDate" then
      let r := parse_datetime c s
      ({ acc with updated_at := aggScalar acc.updated_at r.1 }, r.2)
    else if c.tag = "managingEditor" ∨ c.tag = "webMaster" then
      let r := parse_person c s
      ({ acc with contributors := aggAppend acc.contributors r.1 }, r.2)
    else if c.tag = "category" then
      let r := parse_category c s
      ({ acc with categories := acc.categories ++ [r.1] }, r.2)
    else if c.tag = "title" then
      let r := parse_text c s
      ({ acc with title := aggScalar acc.title r.1 }, r.2)
    else if c.tag = "copyright" then
      let r := parse_text c s
      ({ acc with rights := aggScalar acc.rights r.1 }, r.2)
    else if c.tag = "description" then
      let r := parse_subtitle c s
      ({ acc with subtitle := aggScalar acc.subtitle r.1 }, r.2)
    else if c.tag = "link" then
      let r := parse_link c s
      ({ acc with links := aggAppend acc.links r.1 }, r.2)
    else if c.tag = "generator" then
      let r := parse_generator c s
      ({ acc with generator := some r.1 }, r.2)
    else
      (acc, s)
  else if isAtomNS c.ns && c.tag == "link" then
    let r := parse_atom_link c s
    ({ acc with links := acc.links ++ [r.1] }, r.2)
  else
    (acc, s)

/-- Modelled from the spec: the `ParserBase` dispatch walk (not under
src/) over the direct children of `channel`, in document order. -/
def channelFold (acc : ChannelData) (s : RSSSession) :
    List XMLElement → ChannelData × RSSSession
  | [] => (acc, s)
  | c :: cs =>
    let r := channelStep c acc s
    channelFold r.1 r.2 cs

/-- The source's `parse_channel` as invoked by `parse_rss2`: creates an
empty feed for the `channel` element and dispatches its children. -/
def run_parse_channel (ch : XMLElement) (s : RSSSession) :
    ChannelData × RSSSession :=
  channelFold (parse_channel_init s).1 (parse_channel_init s).2 ch.children

/-- Modelled from the spec: one dispatch step of `ParserBase` (not under
src/) for a direct child of `item`, using the registrations declared in
the source module.  The `guid` and `source` handlers can fail; every
other step is total. -/
def itemStep (env : Env) (c : XMLElement) (acc : Entry) (s : RSSSession) :
    Except PyError (Entry × RSSSession) :=
  if c.ns = none then
    if c.tag = "pubDate" then
      let r := parse_datetime c s
      .ok ({ acc with published_at := aggScalar acc.published_at r.1 }, r.2)
    else if c.tag = "author" then
      let r := parse_person c s
      .ok ({ acc with authors := aggAppend acc.authors r.1 }, r.2)
    else if c.tag = "category" then
      let r := parse_category c s
      .ok ({ acc with categories := acc.categories ++ [r.1] }, r.2)
    else if c.tag = "title" then
      let r := parse_text c s
      .ok ({ acc with title := aggScalar acc.title r.1 }, r.2)
    else if c.tag = "link" then
      let r := parse_link c s
      .ok ({ acc with links := aggAppend acc.links r.1 }, r.2)
    else if c.tag = "enclosure" then
      let r := parse_enclosure c s
      .ok ({ acc with links := acc.links ++ [r.1] }, r.2)
    else if c.tag = "source" then
      match parse_source env c s with
      | .error err => .error err
      | .ok r => .ok ({ acc with source := some r.1 }, r.2)
    else if c.tag = "comments" then
      let r := parse_comments c s
      .ok ({ acc with links := acc.links ++ [r.1] }, r.2)
    else if c.tag = "description" then
      let r := parse_content c s
      .ok ({ acc with content := aggScalar acc.content r.1 }, r.2)
    else if c.tag = "guid" then
      match parse_guid c s with
      | .error err => .error err
      | .ok r => .ok ({ acc with id := aggScalar acc.id r.1 }, r.2)
    else
      .ok (acc, s)
  else if isContentNS c.ns && c.tag == "encoded" then
    let r := parse_content c s
    .ok ({ acc with content := aggScalar acc.content r.1 }, r.2)
  else
    .ok (acc, s)

/-- Modelled from the spec: the `ParserBase` dispatch walk (not under
src/) over the direct children of an `item`, in document order; a
failing handler aborts the walk. -/
def itemFold (env : Env) (acc : Entry) (s : RSSSession) :
    List XMLElement → Except PyError (Entry × RSSSession)
  | [] => .ok (acc, s)
  | c :: cs =>
    match itemStep env c acc s with
    | .error err => .error err
    | .ok r => itemFold env r.1 r.2 cs

/-- The source's `parse_item` as invoked by `parse_rss2`: creates an
empty entry for an `item` element and dispatches its children. -/
def run_parse_item (env : Env) (it : XMLElement) (s : RSSSession) :
    Except PyError (Entry × RSSSession) :=
  itemFold env (parse_item_init s).1 (parse_item_init s).2 it.children

/-- The entry-collection loop of `parse_rss2`: parse each `item` child in
document order with the shared session; any failure aborts the whole
loop. -/
def entriesLoop (env : Env) (s : RSSSession) :
    List XMLElement → Except PyError (List Entry)
  | [] => .ok []
  | it :: rest =>
    match run_parse_item env it s with
    | .error err => .error err
    | .ok r =>
      match entriesLoop env s rest with
      | .error err => .error err
      | .ok l => .ok (r.1 :: l)

/-- Latest of a list of timestamps, falling back to the invocation time
on an empty list. -/
def latestOf (ts : List Int) (now : Int) : Int :=
  match ts with
  | [] => now
  | t :: r => r.foldl max t

/-- The `published_at` timestamps of the entries attached to a feed. -/
def entryTimestamps (f : Feed) : List Int :=
  (f.entries.getD []).filterMap Entry.published_at

/-- Modelled from the spec: `rss_base.make_legal_as_atom` (§4.8, not
under src/).  After mapping: derive an identifier from the origin URL
when none was mapped, add a self-referential link pointing at the
origin URL (RSS 2.0 itself has no such concept), and when no feed-level
updated time was mapped derive it from the latest per-item timestamp,
falling back to the time of this parse invocation. -/
def make_legal_as_atom (now : Int) (f : Feed) (s : RSSSession) : Feed :=
  let f1 := if f.id = none then { f with id := s.feed_url } else f
  let f2 := { f1 with
              links := f1.links ++ [{ uri := s.feed_url, relation := some "self" }] }
  if f2.updated_at = none then
    { f2 with updated_at := some (latestOf (entryTimestamps f2) now) }
  else
    f2

/-- The body of `parse_rss2` once the `channel` element is located and
the session derived: map the channel, optionally map the `item` children
into the entry collection, and run the post-pass normalizer.  The
crawler hint is always `None`. -/
def parse_rss2_channel (env : Env) (channel : XMLElement) (session : RSSSession)
    (parse_entry : Bool) : Except PyError (Feed × Option Unit) :=
  let r := run_parse_channel channel session
  if parse_entry then
    match entriesLoop env r.2 (channel.findall "item") with
    | .error err => .error err
    | .ok entry_list =>
      .ok (make_legal_as_atom env.now
             { toChannelData := r.1, entries := some entry_list } r.2, none)
  else
    .ok (make_legal_as_atom env.now
           { toChannelData := r.1, entries := none } r.2, none)

/-- The source's `parse_rss2` entry point: locate the `channel` element
(dispatching over a missing one raises), derive the session from the
guessed default timezone, and run the channel body. -/
def parse_rss2 (env : Env) (root : XMLElement) (feed_url : Option String)
    (parse_entry : Bool) : Except PyError (Feed × Option Unit) :=
  match root.find "channel" with
  | none => .error .typeError
  | some channel =>
    parse_rss2_channel env channel
      { feed_url := feed_url,
        default_tzinfo := env.guess_default_tzinfo root feed_url } parse_entry

/-- Decidable equality on `Except`, for evaluating concrete parse
results. -/
instance {ε α : Type} [DecidableEq ε] [DecidableEq α] : DecidableEq (Except ε α) := by
  intro a b
  cases a with
  | error e =>
    cases b with
    | error e2 =>
      exact if h : e = e2 then .isTrue (by rw [h]) else .isFalse (by
        intro hc; cases hc; exact h rfl)
    | ok _ => exact .isFalse (by intro hc; cases hc)
  | ok x =>
    cases b with
    | error _ => exact .isFalse (by intro hc; cases hc)
    | ok y =>
      exact if h : x = y then .isTrue (by rw [h]) else .isFalse (by
        intro hc; cases hc; exact h rfl)

/-- Observer projecting a parse result to its feed's updated timestamp
(`none` on failure). -/
def updOf : Except PyError (Feed × Option Unit) → Option Int
  | .ok p => p.1.updated_at
  | .error _ => none

/-- Observer projecting a successful parse result to its feed
(the empty feed on failure). -/
def feedOf : Except PyError (Feed × Option Unit) → Feed
  | .ok p => p.1
  | .error _ => {}

/-- A trivial timezone guesser used for concrete test documents. -/
def tzZero : XMLElement → Option String → Int := fun _ _ => 0

/-- Environment whose source resolver always fails, at clock reading `n`. -/
def envNow (n : Int) : Env :=
  { resolve_source := fun _ => .error .fetchFailed,
    guess_default_tzinfo := tzZero,
    now := n }

/-- Environment whose source resolver always succeeds with an empty
channel, at clock reading `0`. -/
def envRes : Env :=
  { resolve_source := fun _ => .ok {},
    guess_default_tzinfo := tzZero,
    now := 0 }

/-- A `pubDate` element with the given text. -/
def pubDateEl (t : String) : XMLElement := .mk "pubDate" none [] (some t) []

/-- A `title` element with the given text. -/
def titleEl (t : String) : XMLElement := .mk "title" none [] (some t) []

/-- An `item` element with the given children. -/
def itemEl (cs : List XMLElement) : XMLElement := .mk "item" none [] none cs

/-- A `channel` element with the given children. -/
def channelEl (cs : List XMLElement) : XMLElement := .mk "channel" none [] none cs

/-- An `rss` root element with the given children. -/
def rootEl (cs : List XMLElement) : XMLElement := .mk "rss" none [] none cs

/-- Minimal document: a channel with no children. -/
def docEmpty : XMLElement := rootEl [channelEl []]

/-- Document whose channel carries a `pubDate`. -/
def docPub : XMLElement := rootEl [channelEl [pubDateEl "7"]]

/-- Document with one item carrying a `pubDate` and a channel without one. -/
def docItemPub : XMLElement := rootEl [channelEl [itemEl [pubDateEl "5"]]]

/-- A `source` element referencing an external document. -/
def sourceEl : XMLElement := .mk "source" none [("url", "http://s")] none []

/-- An item containing only a `source` element. -/
def itemSourceEl : XMLElement := itemEl [sourceEl]

/-- Document with one item referencing an external source document. -/
def docSource : XMLElement := rootEl [channelEl [itemSourceEl]]

/-- Document whose channel carries two `title` elements. -/
def docTitles : XMLElement := rootEl [channelEl [titleEl "first", titleEl "second"]]

/-- A `guid` element with the given text and attributes. -/
def guidEl (attrs : List (String × String)) (t : Option String) : XMLElement :=
  .mk "guid" none attrs t []

/-- A `generator` element with the given text. -/
def generatorEl (t : Option String) : XMLElement := .mk "generator" none [] t []

/-- The datetime sub-parser never changes the session. -/
theorem rss_datetime_snd (e : XMLElement) (s : RSSSession) :
    (rss_datetime e s).2 = s := by
  unfold rss_datetime
  cases he : e.text with
  | none => rfl
  | some t =>
    show (if t.data.getLast? = some 'Z' then
            ((decNat? t.data.dropLast).map (fun n => (n : Int)), s)
          else
            ((decNat? t.data).map (fun n => (n : Int) - s.default_tzinfo), s)).2 = s
    split_ifs <;> rfl

/-- The generator handler never changes the session. -/
theorem parse_generator_snd (e : XMLElement) (s : RSSSession) :
    (parse_generator e s).2 = s := by
  unfold parse_generator
  split
  · rfl
  · split <;> rfl

/-- A channel dispatch step never changes the session. -/
theorem channelStep_snd (c : XMLElement) (acc : ChannelData) (s : RSSSession) :
    (channelStep c acc s).2 = s := by
  unfold channelStep
  split_ifs <;>
    simp [parse_datetime, rss_datetime_snd, parse_person, rss_person,
          parse_category, parse_text, rss_text, parse_subtitle, rss_subtitle,
          parse_link, rss_link, parse_generator_snd, parse_atom_link]

/-- The channel dispatch walk never changes the session. -/
theorem channelFold_snd : ∀ (cs : List XMLElement) (acc : ChannelData) (s : RSSSession),
    (channelFold acc s cs).2 = s
  | [], _, _ => rfl
  | c :: cs, acc, s => by
    show (channelFold (channelStep c acc s).1 (channelStep c acc s).2 cs).2 = s
    rw [channelFold_snd cs, channelStep_snd]

/-- The channel mapping never changes the session. -/
theorem run_parse_channel_snd (ch : XMLElement) (s : RSSSession) :
    (run_parse_channel ch s).2 = s :=
  channelFold_snd ch.children _ _

/-- The channel dispatch walk over an appended list is the composition
of the walks. -/
theorem channelFold_append : ∀ (xs ys : List XMLElement) (acc : ChannelData) (s : RSSSession),
    channelFold acc s (xs ++ ys) =
      channelFold (channelFold acc s xs).1 (channelFold acc s xs).2 ys
  | [], _, _, _ => rfl
  | c :: cs, ys, acc, s => by
    show channelFold (channelStep c acc s).1 (channelStep c acc s).2 (cs ++ ys) = _
    rw [channelFold_append cs ys]
    rfl

/-- Unfolding of `parse_rss2` once the channel element is found. -/
theorem parse_rss2_eq (env : Env) (root : XMLElement) (url : Option String)
    (pe : Bool) (ch : XMLElement) (hfind : root.find "channel" = some ch) :
    parse_rss2 env root url pe = parse_rss2_channel env ch
      { feed_url := url, default_tzinfo := env.guess_default_tzinfo root url } pe := by
  unfold parse_rss2
  rw [hfind]

/-- Unfolding of the channel body in entry-parsing mode. -/
theorem parse_rss2_channel_true (env : Env) (ch : XMLElement) (session : RSSSession) :
    parse_rss2_channel env ch session true =
      match entriesLoop env (run_parse_channel ch session).2 (ch.findall "item") with
      | .error err => .error err
      | .ok el => .ok (make_legal_as_atom env.now
          { toChannelData := (run_parse_channel ch session).1, entries := some el }
          (run_parse_channel ch session).2, none) := rfl

/-- Unfolding of the channel body in non-entry mode. -/
theorem parse_rss2_channel_false (env : Env) (ch : XMLElement) (session : RSSSession) :
    parse_rss2_channel env ch session false =
      .ok (make_legal_as_atom env.now
        { toChannelData := (run_parse_channel ch session).1, entries := none }
        (run_parse_channel ch session).2, none) := rfl

/-- The normalizer preserves the mapped title. -/
theorem make_legal_title (now : Int) (f : Feed) (s : RSSSession) :
    (make_legal_as_atom now f s).title = f.title := by
  simp only [make_legal_as_atom]
  split_ifs <;> rfl

/-- The normalizer preserves the mapped subtitle. -/
theorem make_legal_subtitle (now : Int) (f : Feed) (s : RSSSession) :
    (make_legal_as_atom now f s).subtitle = f.subtitle := by
  simp only [make_legal_as_atom]
  split_ifs <;> rfl

/-- The normalizer preserves the mapped rights. -/
theorem make_legal_rights (now : Int) (f : Feed) (s : RSSSession) :
    (make_legal_as_atom now f s).rights = f.rights := by
  simp only [make_legal_as_atom]
  split_ifs <;> rfl

/-- The normalizer preserves the mapped generator. -/
theorem make_legal_generator (now : Int) (f : Feed) (s : RSSSession) :
    (make_legal_as_atom now f s).generator = f.generator := by
  simp only [make_legal_as_atom]
  split_ifs <;> rfl

/-- The normalizer preserves the mapped contributors. -/
theorem make_legal_contributors (now : Int) (f : Feed) (s : RSSSession) :
    (make_legal_as_atom now f s).contributors = f.contributors := by
  simp only [make_legal_as_atom]
  split_ifs <;> rfl

/-- The normalizer preserves the mapped categories. -/
theorem make_legal_categories (now : Int) (f : Feed) (s : RSSSession) :
    (make_legal_as_atom now f s).categories = f.categories := by
  simp only [make_legal_as_atom]
  split_ifs <;> rfl

/-- The normalizer preserves the entry collection. -/
theorem make_legal_entries (now : Int) (f : Feed) (s : RSSSession) :
    (make_legal_as_atom now f s).entries = f.entries := by
  simp only [make_legal_as_atom]
  split_ifs <;> rfl

/-- The identifier after normalization: the origin URL when none was
mapped, the mapped one otherwise. -/
theorem make_legal_id (now : Int) (f : Feed) (s : RSSSession) :
    (make_legal_as_atom now f s).id = if f.id = none then s.feed_url else f.id := by
  simp only [make_legal_as_atom]
  split_ifs <;> rfl

/-- The links after normalization: the mapped links followed by the
appended self link pointing at the origin URL. -/
theorem make_legal_links (now : Int) (f : Feed) (s : RSSSession) :
    (make_legal_as_atom now f s).links =
      f.links ++ [{ uri := s.feed_url, relation := some "self" }] := by
  simp only [make_legal_as_atom]
  split_ifs <;> rfl

/-- The updated timestamp after normalization when none was mapped. -/
theorem make_legal_updated_none (now : Int) (f : Feed) (s : RSSSession)
    (hu : f.updated_at = none) :
    (make_legal_as_atom now f s).updated_at =
      some (latestOf (entryTimestamps f) now) := by
  simp only [make_legal_as_atom]
  split_ifs <;> rfl

/-- The updated timestamp after normalization when one was mapped. -/
theorem make_legal_updated_some (now : Int) (f : Feed) (s : RSSSession)
    (hu : f.updated_at ≠ none) :
    (make_legal_as_atom now f s).updated_at = f.updated_at := by
  simp only [make_legal_as_atom]
  split_ifs <;> rfl

/-- The folded maximum of a list is a member of the list extended by
its starting value. -/
theorem foldl_max_mem : ∀ (r : List Int) (t : Int), r.foldl max t ∈ t :: r
  | [], t => List.mem_singleton.mpr rfl
  | a :: r, t => by
    have h := foldl_max_mem r (max t a)
    show r.foldl max (max t a) ∈ t :: a :: r
    rcases List.mem_cons.mp h with h1 | h2
    · rcases max_choice t a with hm | hm
      · rw [h1, hm]; exact List.mem_cons_self _ _
      · rw [h1, hm]; exact List.mem_cons_of_mem _ (List.mem_cons_self _ _)
    · exact List.mem_cons_of_mem _ (List.mem_cons_of_mem _ h2)

/-- The folded maximum bounds every element of the list extended by its
starting value. -/
theorem foldl_max_le : ∀ (r : List Int) (t x : Int), x ∈ t :: r → x ≤ r.foldl max t
  | [], t, x, hx => by
    have hxt : x = t := by simpa using hx
    simp [hxt]
  | a :: r, t, x, hx => by
    have hbase : max t a ≤ r.foldl max (max t a) :=
      foldl_max_le r (max t a) (max t a) (List.mem_cons_self _ _)
    show x ≤ r.foldl max (max t a)
    rcases List.mem_cons.mp hx with h1 | h2
    · rw [h1]; exact le_trans (le_max_left t a) hbase
    · rcases List.mem_cons.mp h2 with h3 | h4
      · rw [h3]; exact le_trans (le_max_right t a) hbase
      · exact foldl_max_le r (max t a) x (List.mem_cons_of_mem _ h4)

/-- The latest timestamp of a non-empty list is one of its elements. -/
theorem latestOf_mem (ts : List Int) (now : Int) (h : ts ≠ []) : latestOf ts now ∈ ts := by
  cases ts with
  | nil => exact absurd rfl h
  | cons t r => exact foldl_max_mem r t

/-- The latest timestamp bounds every element of the list. -/
theorem latestOf_le (ts : List Int) (now x : Int) (hx : x ∈ ts) : x ≤ latestOf ts now := by
  cases ts with
  | nil => cases hx
  | cons t r => exact foldl_max_le r t x hx

/-- A channel dispatch step on an unqualified `title` child overwrites
the title with the child's text and changes nothing else about the
session. -/
theorem channelStep_title_set (c : XMLElement) (acc : ChannelData) (s : RSSSession)
    (htag : c.tag = "title") (hns : c.ns = none) :
    channelStep c acc s = ({ acc with title := some { value := c.text } }, s) := by
  unfold channelStep
  rw [hns, htag]
  rfl

/-- A channel dispatch step on a child that is not an unqualified
`title` leaves the title unchanged. -/
theorem channelStep_title_keep (c : XMLElement) (acc : ChannelData) (s : RSSSession)
    (h : ¬(c.tag = "title" ∧ c.ns = none)) :
    ((channelStep c acc s).1).title = acc.title := by
  unfold channelStep
  split_ifs <;> first
    | rfl
    | exact absurd ⟨by assumption, by assumption⟩ h

/-- The channel dispatch walk over children without an unqualified
`title` leaves the title unchanged. -/
theorem channelFold_title_keep : ∀ (cs : List XMLElement) (acc : ChannelData) (s : RSSSession),
    (∀ c ∈ cs, ¬(c.tag = "title" ∧ c.ns = none)) →
    ((channelFold acc s cs).1).title = acc.title
  | [], _, _, _ => rfl
  | c :: cs, acc, s, h => by
    show ((channelFold (channelStep c acc s).1 (channelStep c acc s).2 cs).1).title = acc.title
    rw [channelFold_title_keep cs _ _ (fun d hd => h d (List.mem_cons_of_mem _ hd)),
        channelStep_title_keep c acc s (h c (List.mem_cons_self c cs))]

/-- The channel dispatch walk maps the title to the text of the last
unqualified `title` child. -/
theorem channelFold_title_last (pre post : List XMLElement) (t : XMLElement)
    (acc : ChannelData) (s : RSSSession) (htag : t.tag = "title") (hns : t.ns = none)
    (hpost : ∀ c ∈ post, ¬(c.tag = "title" ∧ c.ns = none)) :
    ((channelFold acc s (pre ++ t :: post)).1).title = some { value := t.text } := by
  rw [channelFold_append]
  set r := channelFold acc s pre
  show ((channelFold r.1 r.2 (t :: post)).1).title = some { value := t.text }
  show ((channelFold (channelStep t r.1 r.2).1 (channelStep t r.1 r.2).2 post).1).title = _
  rw [channelStep_title_set t r.1 r.2 htag hns]
  rw [channelFold_title_keep post _ _ hpost]

/-- An item dispatch step on an unqualified `title` child overwrites the
entry title with the child's text. -/
theorem itemStep_title_set (env : Env) (c : XMLElement) (acc : Entry) (s : RSSSession)
    (htag : c.tag = "title") (hns : c.ns = none) :
    itemStep env c acc s = .ok ({ acc with title := some { value := c.text } }, s) := by
  unfold itemStep
  rw [hns, htag]
  rfl

/-- A successful item dispatch step on a child that is not an
unqualified `title` leaves the entry title unchanged. -/
theorem itemStep_title_keep (env : Env) (c : XMLElement) (acc : Entry) (s : RSSSession)
    (r : Entry × RSSSession) (h : ¬(c.tag = "title" ∧ c.ns = none))
    (hok : itemStep env c acc s = .ok r) :
    r.1.title = acc.title := by
  unfold itemStep at hok
  by_cases hns : c.ns = none
  · rw [if_pos hns] at hok
    by_cases h1 : c.tag = "pubDate"
    · rw [if_pos h1] at hok; injection hok with hh; subst hh; rfl
    · rw [if_neg h1] at hok
      by_cases h2 : c.tag = "author"
      · rw [if_pos h2] at hok; injection hok with hh; subst hh; rfl
      · rw [if_neg h2] at hok
        by_cases h3 : c.tag = "category"
        · rw [if_pos h3] at hok; injection hok with hh; subst hh; rfl
        · rw [if_neg h3] at hok
          by_cases h4 : c.tag = "title"
          · exact absurd ⟨h4, hns⟩ h
          · rw [if_neg h4] at hok
            by_cases h5 : c.tag = "link"
            · rw [if_pos h5] at hok; injection hok with hh; subst hh; rfl
            · rw [if_neg h5] at hok
              by_cases h6 : c.tag = "enclosure"
              · rw [if_pos h6] at hok; injection hok with hh; subst hh; rfl
              · rw [if_neg h6] at hok
                by_cases h7 : c.tag = "source"
                · rw [if_pos h7] at hok
                  cases hres : parse_source env c s with
                  | error e => rw [hres] at hok; exact Except.noConfusion hok
                  | ok rr => rw [hres] at hok; injection hok with hh; subst hh; rfl
                · rw [if_neg h7] at hok
                  by_cases h8 : c.tag = "comments"
                  · rw [if_pos h8] at hok; injection hok with hh; subst hh; rfl
                  · rw [if_neg h8] at hok
                    by_cases h9 : c.tag = "description"
                    · rw [if_pos h9] at hok; injection hok with hh; subst hh; rfl
                    · rw [if_neg h9] at hok
                      by_cases h10 : c.tag = "guid"
                      · rw [if_pos h10] at hok
                        cases hres : parse_guid c s with
                        | error e => rw [hres] at hok; exact Except.noConfusion hok
                        | ok rr => rw [hres] at hok; injection hok with hh; subst hh; rfl
                      · rw [if_neg h10] at hok; injection hok with hh; subst hh; rfl
  · rw [if_neg hns] at hok
    by_cases hcn : (isContentNS c.ns && c.tag == "encoded") = true
    · rw [if_pos hcn] at hok; injection hok with hh; subst hh; rfl
    · rw [if_neg hcn] at hok; injection hok with hh; subst hh; rfl

/-- A successful item dispatch walk over children without an unqualified
`title` leaves the entry title unchanged. -/
theorem itemFold_title_keep : ∀ (cs : List XMLElement) (env : Env) (acc : Entry)
    (s : RSSSession) (r : Entry × RSSSession),
    itemFold env acc s cs = .ok r →
    (∀ c ∈ cs, ¬(c.tag = "title" ∧ c.ns = none)) →
    r.1.title = acc.title
  | [], env, acc, s, r, hok, _ => by
    injection hok with h1
    rw [← h1]
  | c :: cs, env, acc, s, r, hok, h => by
    simp only [itemFold] at hok
    cases hst : itemStep env c acc s with
    | error e => rw [hst] at hok; exact Except.noConfusion hok
    | ok r1 =>
      rw [hst] at hok
      have hok2 : itemFold env r1.1 r1.2 cs = .ok r := hok
      rw [itemFold_title_keep cs env r1.1 r1.2 r hok2
            (fun d hd => h d (List.mem_cons_of_mem _ hd)),
          itemStep_title_keep env c acc s r1 (h c (List.mem_cons_self c cs)) hst]

/-- The item dispatch walk over an appended list is the composition of
the walks. -/
theorem itemFold_append : ∀ (xs ys : List XMLElement) (env : Env) (acc : Entry)
    (s : RSSSession),
    itemFold env acc s (xs ++ ys) =
      match itemFold env acc s xs with
      | .error err => .error err
      | .ok r => itemFold env r.1 r.2 ys
  | [], _, _, _, _ => rfl
  | c :: cs, ys, env, acc, s => by
    simp only [List.cons_append, itemFold]
    cases hst : itemStep env c acc s with
    | error e => rfl
    | ok r => exact itemFold_append cs ys env r.1 r.2

/-- A successful item dispatch walk maps the entry title to the text of
the last unqualified `title` child. -/
theorem itemFold_title_last (pre post : List XMLElement) (t : XMLElement)
    (env : Env) (acc : Entry) (s : RSSSession) (r : Entry × RSSSession)
    (htag : t.tag = "title") (hns : t.ns = none)
    (hpost : ∀ c ∈ post, ¬(c.tag = "title" ∧ c.ns = none))
    (hok : itemFold env acc s (pre ++ t :: post) = .ok r) :
    r.1.title = some { value := t.text } := by
  rw [itemFold_append] at hok
  cases hpre : itemFold env acc s pre with
  | error e => rw [hpre] at hok; exact Except.noConfusion hok
  | ok r0 =>
    rw [hpre] at hok
    simp only [itemFold] at hok
    rw [itemStep_title_set env t r0.1 r0.2 htag hns] at hok
    rw [itemFold_title_keep post env _ _ r hok (fun d hd => hpost d hd)]

/-- A successful item dispatch step on an unqualified `source` child
implies the external resolution succeeded. -/
theorem itemStep_source_ok (env : Env) (c : XMLElement) (acc : Entry) (s : RSSSession)
    (r : Entry × RSSSession) (htag : c.tag = "source") (hns : c.ns = none)
    (hok : itemStep env c acc s = .ok r) :
    ∃ cd, env.resolve_source (c.get "url") = .ok cd := by
  unfold itemStep at hok
  rw [hns, htag] at hok
  have hok2 : (match parse_source env c s with
      | .error err => (.error err : Except PyError (Entry × RSSSession))
      | .ok rr => .ok ({ acc with source := some rr.1 }, rr.2)) = .ok r := hok
  unfold parse_source at hok2
  cases hres : env.resolve_source (c.get "url") with
  | error e => rw [hres] at hok2; exact Except.noConfusion hok2
  | ok cd => exact ⟨cd, rfl⟩

/-- A successful item dispatch walk implies every unqualified `source`
child of the item resolved successfully. -/
theorem itemFold_sources : ∀ (cs : List XMLElement) (env : Env) (acc : Entry)
    (s : RSSSession) (r : Entry × RSSSession),
    itemFold env acc s cs = .ok r →
    ∀ c ∈ cs, c.tag = "source" → c.ns = none →
      ∃ cd, env.resolve_source (c.get "url") = .ok cd
  | [], _, _, _, _, _, c, hc, _, _ => absurd hc (List.not_mem_nil c)
  | c0 :: cs, env, acc, s, r, hok, c, hc, htag, hns => by
    simp only [itemFold] at hok
    cases hst : itemStep env c0 acc s with
    | error e => rw [hst] at hok; exact Except.noConfusion hok
    | ok r1 =>
      rw [hst] at hok
      have hok2 : itemFold env r1.1 r1.2 cs = .ok r := hok
      rcases List.mem_cons.mp hc with h1 | h2
      · subst h1
        exact itemStep_source_ok env c acc s r1 htag hns hst
      · exact itemFold_sources cs env r1.1 r1.2 r hok2 c h2 htag hns

/-- A successful entry loop implies every listed item was mapped
successfully. -/
theorem entriesLoop_items : ∀ (its : List XMLElement) (env : Env) (s : RSSSession)
    (l : List Entry), entriesLoop env s its = .ok l →
    ∀ it ∈ its, ∃ r, run_parse_item env it s = .ok r
  | [], _, _, _, _, it, hit => absurd hit (List.not_mem_nil it)
  | it0 :: rest, env, s, l, hok, it, hit => by
    simp only [entriesLoop] at hok
    cases hr : run_parse_item env it0 s with
    | error e => rw [hr] at hok; exact Except.noConfusion hok
    | ok r0 =>
      rw [hr] at hok
      rcases List.mem_cons.mp hit with h1 | h2
      · subst h1; exact ⟨r0, hr⟩
      · cases hrest : entriesLoop env s rest with
        | error e => rw [hrest] at hok; exact Except.noConfusion hok
        | ok l2 => exact entriesLoop_items rest env s l2 hrest it h2

/-- An item dispatch step depends on the environment only through the
source resolver. -/
theorem itemStep_env (e1 e2 : Env) (c : XMLElement) (acc : Entry) (s : RSSSession)
    (hres : e1.resolve_source = e2.resolve_source) :
    itemStep e1 c acc s = itemStep e2 c acc s := by
  unfold itemStep parse_source
  rw [hres]

/-- The item dispatch walk depends on the environment only through the
source resolver. -/
theorem itemFold_env : ∀ (cs : List XMLElement) (e1 e2 : Env) (acc : Entry)
    (s : RSSSession), e1.resolve_source = e2.resolve_source →
    itemFold e1 acc s cs = itemFold e2 acc s cs
  | [], _, _, _, _, _ => rfl
  | c :: cs, e1, e2, acc, s, hres => by
    simp only [itemFold]
    rw [itemStep_env e1 e2 c acc s hres]
    cases itemStep e2 c acc s with
    | error e => rfl
    | ok r => exact itemFold_env cs e1 e2 r.1 r.2 hres

/-- The entry loop depends on the environment only through the source
resolver. -/
theorem entriesLoop_env : ∀ (its : List XMLElement) (e1 e2 : Env) (s : RSSSession),
    e1.resolve_source = e2.resolve_source →
    entriesLoop e1 s its = entriesLoop e2 s its
  | [], _, _, _, _ => rfl
  | it :: rest, e1, e2, s, hres => by
    simp only [entriesLoop]
    unfold run_parse_item
    rw [itemFold_env it.children e1 e2 _ _ hres]
    cases itemFold e2 (parse_item_init s).1 (parse_item_init s).2 it.children with
    | error e => rfl
    | ok r => rw [entriesLoop_env rest e1 e2 s hres]

/-- The normalizer does not read the clock when an updated timestamp was
mapped. -/
theorem make_legal_now_indep (n1 n2 : Int) (f : Feed) (s : RSSSession)
    (hu : f.updated_at ≠ none) :
    make_legal_as_atom n1 f s = make_legal_as_atom n2 f s := by
  simp only [make_legal_as_atom]
  split_ifs <;> rfl

/-- Unfolding of `parse_rss2` when the channel element is missing. -/
theorem parse_rss2_none (env : Env) (root : XMLElement) (url : Option String)
    (pe : Bool) (hfind : root.find "channel" = none) :
    parse_rss2 env root url pe = .error .typeError := by
  unfold parse_rss2
  rw [hfind]

/-- Unfolding of the channel mapping to the dispatch walk. -/
theorem run_parse_channel_eq (ch : XMLElement) (s : RSSSession) :
    run_parse_channel ch s = channelFold {} s ch.children := rfl

/-- Characterization of `parse_guid` on an element with text. -/
theorem parse_guid_some (e : XMLElement) (s : RSSSession) (t : String)
    (ht : e.text = some t) :
    parse_guid e s =
      if startsWithHttp t ∧ e.get "isPermalink" ≠ some "False" then .ok (some t, s)
      else if guidRegexMatch t then .ok (some ("urn:uuid:" ++ t), s)
      else .ok (none, s) := by
  unfold parse_guid
  rw [ht]

/-- Characterization of `parse_generator` when `urlparse` succeeds. -/
theorem parse_generator_eq_ok (e : XMLElement) (s : RSSSession) (sch : String)
    (hsch : urlsplitScheme (e.text.getD "") = .ok sch) :
    parse_generator e s =
      if sch = "http" ∨ sch = "https" then ({ uri := e.text }, s)
      else ({ value := e.text }, s) := by
  unfold parse_generator
  rw [hsch]

/-- Characterization of `parse_generator` when `urlparse` raises. -/
theorem parse_generator_eq_err (e : XMLElement) (s : RSSSession) (err : Unit)
    (hsch : urlsplitScheme (e.text.getD "") = .error err) :
    parse_generator e s = ({ value := e.text }, s) := by
  unfold parse_generator
  rw [hsch]

/-- C1: identifier (GUID) classification follows the strict ordered
three-way decision list: (a) a text with the literal `http://` prefix
whose permalink flag is not the string `False` is taken verbatim;
(b) otherwise a text matching the UUID grammar (optionally braced) is
prefixed with `urn:uuid:`; (c) otherwise the handler returns no value
and the field stays unset.  The four concrete instances of the claim
are also established: the plain UUID maps to its `urn:uuid:` form, an
HTTP URL marked `isPermalink="False"` and an opaque string map to no
value, and a plain HTTP URL maps to itself. -/
theorem C1_guid_classification :
    (∀ (e : XMLElement) (s : RSSSession) (t : String), e.text = some t →
      (startsWithHttp t = true → e.get "isPermalink" ≠ some "False" →
        parse_guid e s = .ok (some t, s)) ∧
      (¬(startsWithHttp t = true ∧ e.get "isPermalink" ≠ some "False") →
        guidRegexMatch t = true →
        parse_guid e s = .ok (some ("urn:uuid:" ++ t), s)) ∧
      (¬(startsWithHttp t = true ∧ e.get "isPermalink" ≠ some "False") →
        guidRegexMatch t = false →
        parse_guid e s = .ok (none, s))) ∧
    (∀ s : RSSSession,
      parse_guid (guidEl [] (some "123e4567-e89b-12d3-a456-426614174000")) s =
        .ok (some "urn:uuid:123e4567-e89b-12d3-a456-426614174000", s)) ∧
    (∀ s : RSSSession,
      parse_guid (guidEl [("isPermalink", "False")] (some "http://example.com/1")) s =
        .ok (none, s)) ∧
    (∀ s : RSSSession,
      parse_guid (guidEl [] (some "http://example.com/1")) s =
        .ok (some "http://example.com/1", s)) ∧
    (∀ s : RSSSession,
      parse_guid (guidEl [] (some "not-a-guid-or-url")) s = .ok (none, s)) := by
  refine ⟨?_, fun s => rfl, fun s => rfl, fun s => rfl, fun s => rfl⟩
  intro e s t ht
  rw [parse_guid_some e s t ht]
  refine ⟨?_, ?_, ?_⟩
  · intro h1 h2
    rw [if_pos ⟨h1, h2⟩]
  · intro hn hg
    rw [if_neg hn, if_pos hg]
  · intro hn hg
    rw [if_neg hn, if_neg (by simp [hg])]

/-- Witness for C1: concrete applications of the decision list. -/
theorem C1_guid_classification_witness :
    parse_guid (guidEl [] (some "http://example.com/x")) {} =
      .ok (some "http://example.com/x", {}) :=
  (C1_guid_classification.1 (guidEl [] (some "http://example.com/x")) {}
    "http://example.com/x" rfl).1 (by decide) (by decide)

/-- C2: every enclosure element maps to a link record whose relation is
exactly `enclosure` regardless of the element's attributes, with uri
from `url` and mimetype from `type`; every comments element maps to a
link with relation exactly `discussion` and uri from the text. -/
theorem C2_enclosure_discussion :
    ∀ (e : XMLElement) (s : RSSSession),
      parse_enclosure e s =
        ({ uri := e.get "url", relation := some "enclosure",
           mimetype := e.get "type" }, s) ∧
      parse_comments e s = ({ uri := e.text, relation := some "discussion" }, s) :=
  fun _ _ => ⟨rfl, rfl⟩

/-- C6: the generator handler is total: a text whose URL scheme is http
or https yields a generator carrying the text as uri; any other scheme,
and a `ValueError` from URL parsing, degrade to a generator carrying
the raw text as value. -/
theorem C6_generator_never_fails :
    ∀ (e : XMLElement) (s : RSSSession),
      (∃ g : Generator, parse_generator e s = (g, s)) ∧
      (∀ sch, urlsplitScheme (e.text.getD "") = .ok sch →
        (sch = "http" ∨ sch = "https") →
        parse_generator e s = ({ uri := e.text }, s)) ∧
      (∀ sch, urlsplitScheme (e.text.getD "") = .ok sch →
        ¬(sch = "http" ∨ sch = "https") →
        parse_generator e s = ({ value := e.text }, s)) ∧
      (∀ err, urlsplitScheme (e.text.getD "") = .error err →
        parse_generator e s = ({ value := e.text }, s)) := by
  intro e s
  refine ⟨?_, ?_, ?_, ?_⟩
  · refine ⟨(parse_generator e s).1, ?_⟩
    calc parse_generator e s
        = ((parse_generator e s).1, (parse_generator e s).2) := rfl
      _ = ((parse_generator e s).1, s) := by rw [parse_generator_snd]
  · intro sch hsch hor
    rw [parse_generator_eq_ok e s sch hsch, if_pos hor]
  · intro sch hsch hor
    rw [parse_generator_eq_ok e s sch hsch, if_neg hor]
  · intro err hsch
    exact parse_generator_eq_err e s err hsch

/-- Witness for C6: a concrete http generator and a concrete raised
`ValueError`. -/
theorem C6_generator_never_fails_witness :
    parse_generator (generatorEl (some "http://gen")) {} =
      ({ uri := some "http://gen" }, {}) ∧
    parse_generator (generatorEl (some "http://[bad")) {} =
      ({ value := some "http://[bad" }, {}) :=
  ⟨(C6_generator_never_fails (generatorEl (some "http://gen")) {}).2.1 "http"
      (by decide) (Or.inl rfl),
   (C6_generator_never_fails (generatorEl (some "http://[bad")) {}).2.2.2 ()
      (by decide)⟩

/-- C9: the guid handler has the unstated precondition that the element
carries text: with text absent it raises an `AttributeError` instead of
the documented no-op; with text present it always returns gracefully. -/
theorem C9_guid_none_text :
    ∀ (e : XMLElement) (s : RSSSession),
      (e.text = none → parse_guid e s = .error .attributeError) ∧
      (∀ t, e.text = some t → ∃ v, parse_guid e s = .ok (v, s)) := by
  intro e s
  constructor
  · intro h
    unfold parse_guid
    rw [h]
  · intro t ht
    rw [parse_guid_some e s t ht]
    split_ifs <;> exact ⟨_, rfl⟩

/-- Witness for C9: a concrete guid element without text raises, one
with text returns. -/
theorem C9_guid_none_text_witness :
    parse_guid (guidEl [] none) {} = .error .attributeError ∧
    ∃ v, parse_guid (guidEl [] (some "x")) {} = .ok (v, {}) :=
  ⟨(C9_guid_none_text (guidEl [] none) {}).1 rfl,
   (C9_guid_none_text (guidEl [] (some "x")) {}).2 "x" rfl⟩

/-- C3: parsing a valid document whose channel has zero item children
with entry parsing enabled yields a feed whose entry collection is
assigned and empty, not left absent. -/
theorem C3_empty_entries (env : Env) (root ch : XMLElement) (url : Option String)
    (hfind : root.find "channel" = some ch) (hitems : ch.findall "item" = []) :
    ∃ f : Feed, parse_rss2 env root url true = .ok (f, none) ∧ f.entries = some [] := by
  rw [parse_rss2_eq env root url true ch hfind, parse_rss2_channel_true, hitems]
  refine ⟨_, rfl, ?_⟩
  rw [make_legal_entries]

/-- Witness for C3: the concrete minimal document. -/
theorem C3_empty_entries_witness :
    ∃ f : Feed, parse_rss2 (envNow 0) docEmpty none true = .ok (f, none) ∧
      f.entries = some [] :=
  C3_empty_entries (envNow 0) docEmpty (channelEl []) none rfl rfl

/-- C7: the post-pass normalizer establishes the three cross-field
invariants: a successfully parsed feed with an origin URL carries a
usable identifier, a self link pointing at the origin URL, and an
updated timestamp; the identifier is derived from the origin URL when
none was mapped; and a missing updated timestamp is derived from the
maximum per-item timestamp when any item has one, from the invocation
time otherwise. -/
theorem C7_post_pass :
    (∀ (env : Env) (root : XMLElement) (u : String) (f : Feed) (h : Option Unit),
      parse_rss2 env root (some u) true = .ok (f, h) →
      f.id.isSome = true ∧
      (∃ l ∈ f.links, l.relation = some "self" ∧ l.uri = some u) ∧
      f.updated_at.isSome = true) ∧
    (∀ (now : Int) (f : Feed) (s : RSSSession), f.id = none →
      (make_legal_as_atom now f s).id = s.feed_url) ∧
    (∀ (now : Int) (f : Feed) (s : RSSSession),
      f.updated_at = none → entryTimestamps f = [] →
      (make_legal_as_atom now f s).updated_at = some now) ∧
    (∀ (now : Int) (f : Feed) (s : RSSSession),
      f.updated_at = none → entryTimestamps f ≠ [] →
      ∃ m, (make_legal_as_atom now f s).updated_at = some m ∧
        m ∈ entryTimestamps f ∧ ∀ x ∈ entryTimestamps f, x ≤ m) := by
  refine ⟨?_, ?_, ?_, ?_⟩
  · intro env root u f h hok
    cases hfind : root.find "channel" with
    | none =>
      rw [parse_rss2_none env root (some u) true hfind] at hok
      exact Except.noConfusion hok
    | some ch =>
      rw [parse_rss2_eq env root (some u) true ch hfind, parse_rss2_channel_true] at hok
      cases hloop : entriesLoop env
          (run_parse_channel ch
            { feed_url := some u,
              default_tzinfo := env.guess_default_tzinfo root (some u) }).2
          (ch.findall "item") with
      | error e => rw [hloop] at hok; exact Except.noConfusion hok
      | ok el =>
        rw [hloop] at hok
        injection hok with hpair
        injection hpair with hf hh
        subst hf
        rw [run_parse_channel_snd]
        set f0 : Feed :=
          { toChannelData :=
              (run_parse_channel ch
                { feed_url := some u,
                  default_tzinfo := env.guess_default_tzinfo root (some u) }).1,
            entries := some el } with hf0
        refine ⟨?_, ?_, ?_⟩
        · rw [make_legal_id]
          split_ifs with hid
          · rfl
          · exact Option.isSome_iff_ne_none.mpr hid
        · rw [make_legal_links]
          exact ⟨{ uri := some u, relation := some "self" },
                 List.mem_append_right _ (List.mem_singleton.mpr rfl), rfl, rfl⟩
        · cases hu : f0.updated_at with
          | none => rw [make_legal_updated_none _ _ _ hu]; rfl
          | some v =>
            rw [make_legal_updated_some _ _ _
                  (show f0.updated_at ≠ none by
                    rw [hu]; exact fun hc => Option.noConfusion hc),
                hu]
            rfl
  · intro now f s hid
    rw [make_legal_id, if_pos hid]
  · intro now f s hu hts
    rw [make_legal_updated_none now f s hu, hts]
    rfl
  · intro now f s hu hts
    exact ⟨latestOf (entryTimestamps f) now, make_legal_updated_none now f s hu,
           latestOf_mem _ now hts, fun x hx => latestOf_le _ now x hx⟩

/-- Witness for C7: the concrete minimal document with an origin URL. -/
theorem C7_post_pass_witness :
    (feedOf (parse_rss2 (envNow 0) docEmpty (some "http://feed") true)).id.isSome = true ∧
    (∃ l ∈ (feedOf (parse_rss2 (envNow 0) docEmpty (some "http://feed") true)).links,
      l.relation = some "self" ∧ l.uri = some "http://feed") ∧
    (feedOf (parse_rss2 (envNow 0) docEmpty (some "http://feed") true)).updated_at.isSome
      = true :=
  C7_post_pass.1 (envNow 0) docEmpty "http://feed"
    (feedOf (parse_rss2 (envNow 0) docEmpty (some "http://feed") true)) none (by rfl)

/-- C4: when several children map to the same scalar field, dispatch in
document order makes the last one's extracted value win silently: for
`title` this holds for the channel walk (which cannot fail), for a
successful item walk, and for the title of the feed returned by
`parse_rss2`. -/
theorem C4_last_write_wins :
    (∀ (acc : ChannelData) (s : RSSSession) (pre post : List XMLElement)
      (t : XMLElement),
      t.tag = "title" → t.ns = none →
      (∀ c ∈ post, ¬(c.tag = "title" ∧ c.ns = none)) →
      ((channelFold acc s (pre ++ t :: post)).1).title = some { value := t.text }) ∧
    (∀ (env : Env) (acc : Entry) (s : RSSSession) (pre post : List XMLElement)
      (t : XMLElement) (r : Entry × RSSSession),
      t.tag = "title" → t.ns = none →
      (∀ c ∈ post, ¬(c.tag = "title" ∧ c.ns = none)) →
      itemFold env acc s (pre ++ t :: post) = .ok r →
      r.1.title = some { value := t.text }) ∧
    (∀ (env : Env) (root ch : XMLElement) (url : Option String) (f : Feed)
      (h : Option Unit) (pre post : List XMLElement) (t : XMLElement),
      root.find "channel" = some ch →
      ch.children = pre ++ t :: post →
      t.tag = "title" → t.ns = none →
      (∀ c ∈ post, ¬(c.tag = "title" ∧ c.ns = none)) →
      parse_rss2 env root url true = .ok (f, h) →
      f.title = some { value := t.text }) := by
  refine ⟨?_, ?_, ?_⟩
  · intro acc s pre post t htag hns hpost
    exact channelFold_title_last pre post t acc s htag hns hpost
  · intro env acc s pre post t r htag hns hpost hok
    exact itemFold_title_last pre post t env acc s r htag hns hpost hok
  · intro env root ch url f h pre post t hfind hchildren htag hns hpost hok
    rw [parse_rss2_eq env root url true ch hfind, parse_rss2_channel_true] at hok
    cases hloop : entriesLoop env
        (run_parse_channel ch
          { feed_url := url,
            default_tzinfo := env.guess_default_tzinfo root url }).2
        (ch.findall "item") with
    | error e => rw [hloop] at hok; exact Except.noConfusion hok
    | ok el =>
      rw [hloop] at hok
      injection hok with hpair
      injection hpair with hf hh
      subst hf
      rw [make_legal_title]
      show ((run_parse_channel ch
        { feed_url := url,
          default_tzinfo := env.guess_default_tzinfo root url }).1).title = _
      rw [run_parse_channel_eq, hchildren]
      exact channelFold_title_last pre post t {} _ htag hns hpost

/-- Witness for C4: the concrete document with two titles. -/
theorem C4_last_write_wins_witness :
    (feedOf (parse_rss2 (envNow 0) docTitles none true)).title =
      some { value := some "second" } :=
  C4_last_write_wins.2.2 (envNow 0) docTitles
    (channelEl [titleEl "first", titleEl "second"]) none
    (feedOf (parse_rss2 (envNow 0) docTitles none true)) none
    [titleEl "first"] [] (titleEl "second") rfl rfl rfl rfl
    (fun c hc => absurd hc (List.not_mem_nil c)) (by rfl)

/-- C5: a failing fetch or parse of an item's external `source`
reference propagates: if some unqualified `source` child of a listed
item cannot be resolved, `parse_rss2` with entry parsing returns no
feed object at all. -/
theorem C5_source_failure_aborts :
    ∀ (env : Env) (root ch it c : XMLElement) (url : Option String),
      root.find "channel" = some ch →
      it ∈ ch.findall "item" →
      c ∈ it.children → c.tag = "source" → c.ns = none →
      (∀ cd, env.resolve_source (c.get "url") ≠ .ok cd) →
      ∀ p : Feed × Option Unit, parse_rss2 env root url true ≠ .ok p := by
  intro env root ch it c url hfind hit hc htag hns hfail p hok
  rw [parse_rss2_eq env root url true ch hfind, parse_rss2_channel_true] at hok
  cases hloop : entriesLoop env
      (run_parse_channel ch
        { feed_url := url,
          default_tzinfo := env.guess_default_tzinfo root url }).2
      (ch.findall "item") with
  | error e => rw [hloop] at hok; exact Except.noConfusion hok
  | ok el =>
    obtain ⟨r1, hri⟩ := entriesLoop_items (ch.findall "item") env _ el hloop it hit
    obtain ⟨cd, hcd⟩ := itemFold_sources it.children env _ _ r1 hri c hc htag hns
    exact hfail cd hcd

/-- Witness for C5: the concrete document whose single item references
an unresolvable source. -/
theorem C5_source_failure_aborts_witness :
    parse_rss2 (envNow 0) docSource none true ≠
      .ok (feedOf (parse_rss2 (envNow 0) docSource none true), none) :=
  C5_source_failure_aborts (envNow 0) docSource (channelEl [itemSourceEl])
    itemSourceEl sourceEl none rfl
    (show itemSourceEl ∈ [itemSourceEl] from List.mem_singleton.mpr rfl)
    (show sourceEl ∈ [sourceEl] from List.mem_singleton.mpr rfl)
    rfl rfl (fun _cd hcd => Except.noConfusion hcd)
    (feedOf (parse_rss2 (envNow 0) docSource none true), none)

/-- The channel body ignores the clock reading whenever the channel walk
mapped an updated timestamp. -/
theorem parse_rss2_channel_now (res : Option String → Except PyError ChannelData)
    (g : XMLElement → Option String → Int) (n1 n2 : Int) (ch : XMLElement)
    (session : RSSSession) (pe : Bool)
    (hupd : ((run_parse_channel ch session).1).updated_at ≠ none) :
    parse_rss2_channel { resolve_source := res, guess_default_tzinfo := g, now := n1 }
        ch session pe =
    parse_rss2_channel { resolve_source := res, guess_default_tzinfo := g, now := n2 }
        ch session pe := by
  cases pe with
  | false =>
    show Except.ok (make_legal_as_atom n1
        { toChannelData := (run_parse_channel ch session).1, entries := none }
        (run_parse_channel ch session).2, (none : Option Unit)) =
      .ok (make_legal_as_atom n2
        { toChannelData := (run_parse_channel ch session).1, entries := none }
        (run_parse_channel ch session).2, (none : Option Unit))
    rw [make_legal_now_indep n1 n2 _ _ hupd]
  | true =>
    show (match entriesLoop { resolve_source := res, guess_default_tzinfo := g, now := n1 }
            (run_parse_channel ch session).2 (ch.findall "item") with
          | .error err => (.error err : Except PyError (Feed × Option Unit))
          | .ok el => .ok (make_legal_as_atom n1
              { toChannelData := (run_parse_channel ch session).1, entries := some el }
              (run_parse_channel ch session).2, none)) =
        (match entriesLoop { resolve_source := res, guess_default_tzinfo := g, now := n2 }
            (run_parse_channel ch session).2 (ch.findall "item") with
          | .error err => (.error err : Except PyError (Feed × Option Unit))
          | .ok el => .ok (make_legal_as_atom n2
              { toChannelData := (run_parse_channel ch session).1, entries := some el }
              (run_parse_channel ch session).2, none))
    rw [entriesLoop_env (ch.findall "item")
          { resolve_source := res, guess_default_tzinfo := g, now := n1 }
          { resolve_source := res, guess_default_tzinfo := g, now := n2 } _ rfl]
    cases hl : entriesLoop { resolve_source := res, guess_default_tzinfo := g, now := n2 }
        (run_parse_channel ch session).2 (ch.findall "item") with
    | error e => rfl
    | ok el =>
      show Except.ok (make_legal_as_atom n1
          { toChannelData := (run_parse_channel ch session).1, entries := some el }
          (run_parse_channel ch session).2, (none : Option Unit)) =
        .ok (make_legal_as_atom n2
          { toChannelData := (run_parse_channel ch session).1, entries := some el }
          (run_parse_channel ch session).2, (none : Option Unit))
      rw [make_legal_now_indep n1 n2 _ _ hupd]

/-- Counterexample to C8 as stated: with the same document, origin URL
and Session (the resolver and the timezone guess are shared and the
session is identical), two invocations at different clock readings
produce different feeds, because a document with no timestamps anywhere
gets its updated field from the invocation time. -/
theorem C8_counterexample :
    updOf (parse_rss2 (envNow 0) docEmpty none true) = some 0 ∧
    updOf (parse_rss2 (envNow 1) docEmpty none true) = some 1 ∧
    updOf (parse_rss2 (envNow 0) docEmpty none true) ≠
      updOf (parse_rss2 (envNow 1) docEmpty none true) :=
  ⟨by decide, by decide, by decide⟩

/-- C8 (amended): parsing is deterministic as a function of the
document, Session and collaborator environment including the invocation
clock; in particular, whenever the channel mapping itself yields a
feed-level updated timestamp, the output is independent of the clock
reading, so runs at different times coincide. -/
theorem C8_determinism_modulo_clock :
    ∀ (res : Option String → Except PyError ChannelData)
      (g : XMLElement → Option String → Int) (n1 n2 : Int)
      (root ch : XMLElement) (url : Option String) (pe : Bool),
      root.find "channel" = some ch →
      ((run_parse_channel ch
          { feed_url := url, default_tzinfo := g root url }).1).updated_at ≠ none →
      parse_rss2 { resolve_source := res, guess_default_tzinfo := g, now := n1 }
          root url pe =
      parse_rss2 { resolve_source := res, guess_default_tzinfo := g, now := n2 }
          root url pe := by
  intro res g n1 n2 root ch url pe hfind hupd
  rw [parse_rss2_eq { resolve_source := res, guess_default_tzinfo := g, now := n1 }
        root url pe ch hfind,
      parse_rss2_eq { resolve_source := res, guess_default_tzinfo := g, now := n2 }
        root url pe ch hfind]
  exact parse_rss2_channel_now res g n1 n2 ch _ pe hupd

/-- Witness for the amended C8: a channel with a mapped `pubDate` parses
identically at clock readings 0 and 5. -/
theorem C8_determinism_modulo_clock_witness :
    parse_rss2 (envNow 0) docPub none true = parse_rss2 (envNow 5) docPub none true :=
  C8_determinism_modulo_clock (fun _ => .error .fetchFailed) tzZero 0 5 docPub
    (channelEl [pubDateEl "7"]) none true rfl (by decide)

/-- Counterexample to C10 as stated: on a document whose channel has no
`pubDate` but whose single item has one, entry mode derives the feed's
updated timestamp from the item while non-entry mode falls back to the
invocation time, so a channel-level field differs between the modes. -/
theorem C10_counterexample :
    updOf (parse_rss2 (envNow 0) docItemPub none true) = some 5 ∧
    updOf (parse_rss2 (envNow 0) docItemPub none false) = some 0 ∧
    updOf (parse_rss2 (envNow 0) docItemPub none true) ≠
      updOf (parse_rss2 (envNow 0) docItemPub none false) :=
  ⟨by decide, by decide, by decide⟩

/-- C10 (amended): with entry parsing disabled the item children
contribute nothing to the channel mapping and `entries` is never
assigned; every channel-level field except the normalized updated
timestamp is populated identically in both modes. -/
theorem C10_no_entry_mode :
    (∀ (env : Env) (root : XMLElement) (url : Option String) (f : Feed)
      (h : Option Unit),
      parse_rss2 env root url false = .ok (f, h) → f.entries = none) ∧
    (∀ (c : XMLElement) (acc : ChannelData) (s : RSSSession),
      c.tag = "item" → c.ns = none → channelStep c acc s = (acc, s)) ∧
    (∀ (env : Env) (root : XMLElement) (url : Option String) (f1 f2 : Feed)
      (h1 h2 : Option Unit),
      parse_rss2 env root url true = .ok (f1, h1) →
      parse_rss2 env root url false = .ok (f2, h2) →
      f1.id = f2.id ∧ f1.title = f2.title ∧ f1.subtitle = f2.subtitle ∧
      f1.rights = f2.rights ∧ f1.generator = f2.generator ∧
      f1.contributors = f2.contributors ∧ f1.categories = f2.categories ∧
      f1.links = f2.links) := by
  refine ⟨?_, ?_, ?_⟩
  · intro env root url f h hok
    cases hfind : root.find "channel" with
    | none =>
      rw [parse_rss2_none env root url false hfind] at hok
      exact Except.noConfusion hok
    | some ch =>
      rw [parse_rss2_eq env root url false ch hfind, parse_rss2_channel_false] at hok
      injection hok with hpair
      injection hpair with hf hh
      subst hf
      rw [make_legal_entries]
  · intro c acc s htag hns
    unfold channelStep
    rw [hns, htag]
    rfl
  · intro env root url f1 f2 h1 h2 hok1 hok2
    cases hfind : root.find "channel" with
    | none =>
      rw [parse_rss2_none env root url true hfind] at hok1
      exact Except.noConfusion hok1
    | some ch =>
      rw [parse_rss2_eq env root url true ch hfind, parse_rss2_channel_true] at hok1
      rw [parse_rss2_eq env root url false ch hfind, parse_rss2_channel_false] at hok2
      injection hok2 with hpair2
      injection hpair2 with hf2 hh2
      subst hf2
      cases hloop : entriesLoop env
          (run_parse_channel ch
            { feed_url := url,
              default_tzinfo := env.guess_default_tzinfo root url }).2
          (ch.findall "item") with
      | error e => rw [hloop] at hok1; exact Except.noConfusion hok1
      | ok el =>
        rw [hloop] at hok1
        injection hok1 with hpair1
        injection hpair1 with hf1 hh1
        subst hf1
        refine ⟨?_, ?_, ?_, ?_, ?_, ?_, ?_, ?_⟩
        · rw [make_legal_id, make_legal_id]
        · rw [make_legal_title, make_legal_title]
        · rw [make_legal_subtitle, make_legal_subtitle]
        · rw [make_legal_rights, make_legal_rights]
        · rw [make_legal_generator, make_legal_generator]
        · rw [make_legal_contributors, make_legal_contributors]
        · rw [make_legal_categories, make_legal_categories]
        · rw [make_legal_links, make_legal_links]

/-- Witness for the amended C10: the concrete document parsed in
non-entry mode leaves the entry collection absent. -/
theorem C10_no_entry_mode_witness :
    (feedOf (parse_rss2 (envNow 0) docItemPub none false)).entries = none :=
  C10_no_entry_mode.1 (envNow 0) docItemPub none
    (feedOf (parse_rss2 (envNow 0) docItemPub none false)) none (by rfl)

example : guidRegexMatch "123e4567-e89b-12d3-a456-426614174000" = true := by decide

example : guidRegexMatch "not-a-guid-or-url" = false := by decide

example : startsWithHttp "http://example.com/1" = true := by decide

example : parse_guid (guidEl [] (some "123e4567-e89b-12d3-a456-426614174000")) {} =
    .ok (some "urn:uuid:123e4567-e89b-12d3-a456-426614174000", {}) := by decide

example : parse_guid (guidEl [("isPermalink", "False")] (some "http://example.com/1")) {} =
    .ok (none, {}) := by decide

example : urlsplitScheme "http://gen" = .ok "http" := by decide

example : urlsplitScheme "not a url" = .ok "" := by decide

example : urlsplitScheme "http://[abc" = .error () := by decide

example : updOf (parse_rss2 (envNow 3) docEmpty none true) = some 3 := by decide

example : updOf (parse_rss2 (envNow 0) docItemPub none true) = some 5 := by decide

example : updOf (parse_rss2 (envNow 0) docItemPub none false) = some 0 := by decide

example : updOf (parse_rss2 (envNow 0) docPub none true) = some 7 := by decide

example : parse_rss2 envRes docSource none true =
    .ok (feedOf (parse_rss2 envRes docSource none true), none) := by rfl

example : (feedOf (parse_rss2 (envNow 0) docTitles none true)).title =
    some { value := some "second" } := by decide

end Libearth
